import Mathlib

/-!
Verification of the geocoding pipeline of `geocode-sqlite`.

The driver (`geocode` in `geocode_sqlite/cli.py`), the context helpers, the
option defaults and the provider subcommands are embedded from the source.
The row selector (`select_ungeocoded`) and the pipeline (`geocode_list`) live
in `geocode_sqlite/utils.py`, which is not part of the sources at hand, so
they are modelled from the specification; the same holds for geopy's
`RateLimiter`, an external dependency specified in §4.2 of the spec.
-/

namespace GeocodeSqlite

/-- A scalar value stored in a table cell: a string or a number. -/
inductive Val where
  | s (str : String)
  | q (num : Rat)
deriving DecidableEq, Repr

/-- A row of the table: an association of column names to cells. A column can
be present with a null cell (`none`) or absent from the list entirely. -/
abbrev Row := List (String × Option Val)

/-- Look up a column in a row, conflating a null cell and a missing column
into `none`. -/
def rowGet (row : Row) (c : String) : Option Val :=
  match row.lookup c with
  | some cell => cell
  | none => none

/-- Set a column of a row to a value, as Python dict assignment does: replace
the cell when the column is present, append the column otherwise. -/
def rowSet (row : Row) (c : String) (v : Val) : Row :=
  if (row.lookup c).isSome then
    row.map (fun p => if p.1 = c then (c, some v) else p)
  else
    row ++ [(c, some v)]

/-- Modelled from the spec: the selection predicate of §4.1 — a row qualifies
when its latitude value or its longitude value is null or missing (logical OR
across the two coordinate columns). -/
def ungeocoded (latCol lonCol : String) (row : Row) : Bool :=
  (rowGet row latCol).isNone || (rowGet row lonCol).isNone

/-- Modelled from the spec: `select_ungeocoded` lives in
`geocode_sqlite/utils.py`, which is not among the sources; §4.1 of the spec
says it returns the finite sequence of rows whose latitude or longitude value
is null or missing, together with the eagerly computed total count of such
rows. -/
def select_ungeocoded (tableRows : List Row) (latCol lonCol : String) :
    List Row × Nat :=
  let rows := tableRows.filter (ungeocoded latCol lonCol)
  (rows, rows.length)

/-- Modelled from the spec: the classified result of one geocode attempt
(§3, GeocodeOutcome) — found coordinates, a NotFound answer, an Error result,
or an exception raised by the provider call (§4.2 treats a raise like an
Error). -/
inductive Outcome where
  | found (lat lon : Rat)
  | notFound
  | error (cause : String)
  | raised (exn : String)
deriving DecidableEq, Repr

/-- Success classification of an outcome: only found coordinates count. -/
def Outcome.isSuccess : Outcome → Bool
  | .found _ _ => true
  | _ => false

/-- Modelled from the spec: the provider capability (§6) — a single
query-to-outcome function, together with the provider's identifying name
(written into the `geocoder` column on success). -/
structure Provider where
  name : String
  geocode : String → Outcome

/-- One piece of a location template: a literal or a named replacement
field. -/
inductive TPart where
  | lit (text : String)
  | field (name : String)
deriving DecidableEq, Repr

/-- A location template, e.g. the default template is the single replacement
field named `location`. -/
abbrev Template := List TPart

/-- How a cell prints inside a rendered template (Python renders a null cell
as the string None). -/
def cellStr : Option Val → String
  | some (Val.s str) => str
  | some (Val.q num) => toString num
  | none => "None"

/-- Render a template against a row's fields, the way Python's
`template.format(**row)` substitutes keyword arguments: a replacement field
naming a missing column is a TemplateError (`none`); a null cell renders as
the string None. -/
def renderTemplate : Template → Row → Option String
  | [], _ => some ""
  | TPart.lit text :: rest, row =>
      (renderTemplate rest row).map (fun tail => text ++ tail)
  | TPart.field n :: rest, row =>
      match row.lookup n, renderTemplate rest row with
      | some cell, some tail => some (cellStr cell ++ tail)
      | _, _ => none

/-- Python's `template.format(row)` with the row passed as a single positional
argument and no keyword arguments (cli.py line 120): a named replacement field
finds no keyword argument and raises KeyError, so rendering fails (`none`);
only a template without replacement fields renders. -/
def formatPositional : Template → Row → Option String
  | [], _ => some ""
  | TPart.lit text :: rest, row =>
      (formatPositional rest row).map (fun tail => text ++ tail)
  | TPart.field _ :: _, _ => none

/-- Modelled from the spec: one classification step of the pipeline (§4.3) —
a Found outcome writes the coordinate columns and the `geocoder` column into
the row and is a success; NotFound, Error and a raised exception leave the
row untouched and are failures. -/
def applyOutcome (latCol lonCol pname : String) (row : Row) :
    Outcome → Row × Bool
  | .found lat lon =>
      (rowSet (rowSet (rowSet row latCol (Val.q lat)) lonCol (Val.q lon))
        "geocoder" (Val.s pname), true)
  | _ => (row, false)

/-- Modelled from the spec: `geocode_list` lives in `geocode_sqlite/utils.py`,
which is not among the sources; §4.3 of the spec: for each row in order,
render the template (a TemplateError stops the run after the pairs already
yielded — second component `true`), dispatch the rendered query, classify the
outcome, and yield one `(row, success)` pair; a provider failure only marks
its own row and iteration continues. -/
def geocode_list (rows : List Row) (p : Provider) (t : Template)
    (latCol lonCol : String) : List (Row × Bool) × Bool :=
  match rows with
  | [] => ([], false)
  | row :: rest =>
    match renderTemplate t row with
    | none => ([], true)
    | some query =>
      let pair := applyOutcome latCol lonCol p.name row (p.geocode query)
      let next := geocode_list rest p t latCol lonCol
      (pair :: next.1, next.2)

/-- The primary-key tuple of a row: the row's value at each primary-key
column (cli.py line 108). -/
def rowPks (pkCols : List String) (row : Row) : List (Option Val) :=
  pkCols.map (rowGet row)

/-- The storage collaborator's `table.update(pks, row)`: replace each stored
row whose primary-key tuple matches `pks` with the given row. -/
def tableUpdate (stored : List Row) (pkCols : List String)
    (pks : List (Option Val)) (newRow : Row) : List Row :=
  stored.map (fun r => if rowPks pkCols r = pks then newRow else r)

/-- The storage collaborator's `table.get(pk)`: the first stored row with the
given primary-key tuple, if any. -/
def tableGet (stored : List Row) (pkCols : List String)
    (pks : List (Option Val)) : Option Row :=
  stored.find? (fun r => decide (rowPks pkCols r = pks))

/-- The consumer loop's state (cli.py lines 99-113): the stored table rows,
the count of geocoded rows, and the primary keys of the failed rows. -/
structure DriveState where
  stored : List Row
  done : Nat
  errors : List (List (Option Val))
deriving DecidableEq, Repr

/-- One iteration of the consumer loop (cli.py lines 107-113): on success,
persist the row through a primary-key update and bump the counter; on
failure, append the primary-key tuple to the error list and write nothing. -/
def driveStep (pkCols : List String) (st : DriveState) (pair : Row × Bool) :
    DriveState :=
  let pks := rowPks pkCols pair.1
  if pair.2 then
    { st with stored := tableUpdate st.stored pkCols pks pair.1,
              done := st.done + 1 }
  else
    { st with errors := st.errors ++ [pks] }

/-- The whole consumer loop over the pipeline's pairs, starting from zero
geocoded rows and an empty error list (cli.py lines 99-113). -/
def drive (pkCols : List String) (stored : List Row)
    (pairs : List (Row × Bool)) : DriveState :=
  pairs.foldl (driveStep pkCols) { stored := stored, done := 0, errors := [] }

/-- Display of a primary-key tuple inside a summary line (Python's f-string
interpolation of the list of key values). -/
def pksStr (pks : List (Option Val)) : String :=
  toString (repr pks)

/-- The per-failure part of the end-of-run summary (cli.py lines 118-120):
for each recorded primary key, fetch the stored row and build the line from
`location.format(row)`, i.e. `formatPositional` — the row is passed as a
positional argument. Returns the lines printed before any exception, and
whether an exception escaped (a missing row or a KeyError from the format
call). -/
def summaryBody (stored : List Row) (pkCols : List String) (t : Template) :
    List (List (Option Val)) → List String × Bool
  | [] => ([], false)
  | pks :: rest =>
    match tableGet stored pkCols pks with
    | none => ([], true)
    | some row =>
      match formatPositional t row with
      | none => ([], true)
      | some loc =>
        let next := summaryBody stored pkCols t rest
        ((pksStr pks ++ ": " ++ loc) :: next.1, next.2)

/-- The end-of-run summary (cli.py lines 115-120): the count line, then —
only when some row failed — a header and one line per failed primary key.
Returns the printed lines and whether an exception escaped while printing
them. -/
def summaryLines (st : DriveState) (pkCols : List String) (t : Template) :
    List String × Bool :=
  let head := "Geocoded " ++ toString st.done ++ " rows"
  if st.errors.isEmpty then ([head], false)
  else
    let body := summaryBody st.stored pkCols t st.errors
    (head :: "The following rows failed to geocode:" :: body.1, body.2)

/-- The storage type of a table column: sqlite-utils maps Python float to a
FLOAT column and Python str to a TEXT column. -/
inductive ColType where
  | float
  | text
deriving DecidableEq, Repr

/-- A column of the table schema: a name and a storage type. -/
structure Column where
  name : String
  ty : ColType
deriving DecidableEq, Repr

/-- One conditional column creation of the driver (cli.py lines 80-90):
`if name not in table.columns_dict: table.add_column(name, ty)`. -/
def addColumnIfMissing (cols : List Column) (n : String) (ty : ColType) :
    List Column :=
  if cols.any (fun c => c.name = n) then cols
  else cols ++ [{ name := n, ty := ty }]

/-- Schema preparation of the driver (cli.py lines 80-90): add the latitude
column (float) when missing, then the longitude column (float) when missing,
then the `geocoder` column (str) when missing. -/
def prepareSchema (cols : List Column) (latCol lonCol : String) :
    List Column :=
  let c1 := addColumnIfMissing cols latCol ColType.float
  let c2 := addColumnIfMissing c1 lonCol ColType.float
  addColumnIfMissing c2 "geocoder" ColType.text

/-- Everything the driver run produces, kept side by side for the theorems:
the prepared schema, the selection with its count, the pipeline output, the
final consumer state and the summary output. -/
structure RunResult where
  schema : List Column
  selected : List Row
  count : Nat
  pairs : List (Row × Bool)
  aborted : Bool
  final : DriveState
  output : List String × Bool

/-- The driver `geocode` (cli.py lines 63-120): prepare the schema, select
the ungeocoded rows together with their count, run the pipeline over exactly
those rows, consume it persisting each success immediately, then print the
summary. -/
def geocode_run (cols : List Column) (stored : List Row)
    (pkCols : List String) (p : Provider) (t : Template)
    (latCol lonCol : String) : RunResult :=
  let schema := prepareSchema cols latCol lonCol
  let sel := select_ungeocoded stored latCol lonCol
  let gen := geocode_list sel.1 p t latCol lonCol
  let final := drive pkCols stored gen.1
  { schema := schema, selected := sel.1, count := sel.2, pairs := gen.1,
    aborted := gen.2, final := final,
    output := summaryLines final pkCols t }

/-- Modelled from the spec: geopy's `RateLimiter` (cli.py line 93 wraps
`geocoder.geocode` in it) is an external dependency; §4.2 of the spec
specifies it — a stateful limiter holding the start time of the last call and
delaying each new call so that successive call starts are at least `minDelay`
apart. Time is an explicit logical clock (rational seconds). -/
structure RateLimiter where
  minDelay : Rat
  lastCall : Option Rat
deriving DecidableEq, Repr

/-- The driver's limiter construction (cli.py line 93): always wrap the
geocode capability in a rate limiter with `min_delay_seconds = delay`, even
when the delay is zero. -/
def makeLimiter (delay : Rat) : RateLimiter :=
  { minDelay := delay, lastCall := none }

/-- Modelled from the spec: issue one call through the limiter at current
time `now` — block until `lastCall + minDelay` when needed, record the start
time and return it with the updated limiter. -/
def limiterCall (rl : RateLimiter) (now : Rat) : Rat × RateLimiter :=
  let start :=
    match rl.lastCall with
    | none => now
    | some last =>
        if now ≤ last + rl.minDelay then last + rl.minDelay else now
  (start, { minDelay := rl.minDelay, lastCall := some start })

/-- The start times of a sequence of calls requested at the given times,
threaded through one limiter for the whole run. -/
def dispatchTimes (rl : RateLimiter) : List Rat → List Rat
  | [] => []
  | now :: rest =>
    let c := limiterCall rl now
    c.1 :: dispatchTimes c.2 rest

/-- A value stored in the click context object: the common options are
strings except for the delay, a float. -/
inductive CtxVal where
  | s (str : String)
  | q (num : Rat)
deriving DecidableEq, Repr

/-- The click context object `ctx.obj`: a dictionary from option names to
values, possibly holding other keys as well. -/
abbrev Ctx := String → Option CtxVal

/-- One dictionary assignment inside `ctx.obj.update(...)`. -/
def ctxSet (ctx : Ctx) (k : String) (v : CtxVal) : Ctx :=
  fun key => if key = k then some v else ctx key

/-- `fill_context` (cli.py lines 31-40): store the six common options in the
context object under their names. -/
def fill_context (ctx : Ctx) (database table location : String) (delay : Rat)
    (latitude longitude : String) : Ctx :=
  ctxSet (ctxSet (ctxSet (ctxSet (ctxSet (ctxSet ctx
    "database" (CtxVal.s database))
    "table" (CtxVal.s table))
    "location" (CtxVal.s location))
    "delay" (CtxVal.q delay))
    "latitude" (CtxVal.s latitude))
    "longitude" (CtxVal.s longitude)

/-- `extract_context` (cli.py lines 43-52): read the six common options back
from the context object, in the order database, table, location, delay,
latitude, longitude. -/
def extract_context (ctx : Ctx) :
    Option CtxVal × Option CtxVal × Option CtxVal × Option CtxVal ×
      Option CtxVal × Option CtxVal :=
  (ctx "database", ctx "table", ctx "location", ctx "delay",
    ctx "latitude", ctx "longitude")

/-- The geocoder client a subcommand constructs and returns (cli.py lines
123-204); each constructor records the arguments passed to the client
class. -/
inductive Geocoder where
  | bing (apiKey : String)
  | googleV3 (apiKey domain : String)
  | mapQuest (apiKey : String)
  | nominatim (userAgent : Option String) (domain : String)
  | mapBox (apiKey : String)
deriving DecidableEq, Repr

/-- What one subcommand invocation does before the result callback runs: the
line it echoes, the filled context, and the geocoder it returns. -/
structure SubcommandResult where
  echoed : String
  ctx : Ctx
  geocoder : Geocoder

/-- The `mapquest` subcommand (cli.py lines 158-167): echo, fill the context
with the six common options, and return a MapQuest geocoder built from the
API key. -/
def mapquest (ctx : Ctx) (database table location : String) (delay : Rat)
    (latitude longitude apiKey : String) : SubcommandResult :=
  { echoed := "Using MapQuest geocoder",
    ctx := fill_context ctx database table location delay latitude longitude,
    geocoder := Geocoder.mapQuest apiKey }

/-- The `open-mapquest` subcommand (cli.py lines 183-192): echo, fill the
context with the six common options, and return a MapQuest geocoder built
from the API key. -/
def open_mapquest (ctx : Ctx) (database table location : String) (delay : Rat)
    (latitude longitude apiKey : String) : SubcommandResult :=
  { echoed := "Using MapQuest geocoder",
    ctx := fill_context ctx database table location delay latitude longitude,
    geocoder := Geocoder.mapQuest apiKey }

/-- The values of the four common options after parsing (cli.py lines
23-26). -/
structure CommonOptions where
  location : String
  delay : Rat
  latitude : String
  longitude : String
deriving DecidableEq, Repr

/-- Resolution of the common options a subcommand receives (cli.py lines
23-26): each option takes the supplied value when given, its declared
default otherwise — location defaults to the template string, delay to 1.0
second, latitude and longitude to the standard column names. -/
def resolveCommonOptions (location : Option String) (delay : Option Rat)
    (latitude longitude : Option String) : CommonOptions :=
  { location := location.getD "{location}",
    delay := delay.getD 1,
    latitude := latitude.getD "latitude",
    longitude := longitude.getD "longitude" }

/-- Concrete fixture: a row still lacking both coordinates (null cells). -/
def wRow1 : Row :=
  [("id", some (Val.s "1")), ("location", some (Val.s "London")),
    ("latitude", none), ("longitude", none)]

/-- Concrete fixture: a row whose latitude column is absent entirely. -/
def wRow2 : Row :=
  [("id", some (Val.s "2")), ("location", some (Val.s "Paris")),
    ("longitude", none)]

/-- Concrete fixture: a row with both coordinates already set. -/
def wRow3 : Row :=
  [("id", some (Val.s "3")), ("location", some (Val.s "Rome")),
    ("latitude", some (Val.q 1)), ("longitude", some (Val.q 2))]

/-- Concrete fixture: a three-row table. -/
def wTable : List Row := [wRow1, wRow2, wRow3]

/-- Concrete fixture: a provider that fails on the query London and succeeds
elsewhere. -/
def wProvider : Provider :=
  { name := "dummy",
    geocode := fun query =>
      if query = "London" then Outcome.notFound
      else Outcome.found 3 4 }

/-- Concrete fixture: the default location template, a single replacement
field named location. -/
def wTemplate : Template := [TPart.field "location"]

/-- Concrete fixture: a consumer state recording one failed primary key. -/
def wFailState : DriveState :=
  { stored := [wRow1], done := 0, errors := [[some (Val.s "1")]] }

/-- C1: the row selector returns the count of the selected rows, computed
from the selection itself, and a row is selected iff it is a table row whose
latitude value or longitude value is null or missing; a row with both
coordinates set is never selected. -/
theorem select_ungeocoded_correct (tableRows : List Row)
    (latCol lonCol : String) :
    (select_ungeocoded tableRows latCol lonCol).2 =
      (select_ungeocoded tableRows latCol lonCol).1.length ∧
    (∀ r : Row, r ∈ (select_ungeocoded tableRows latCol lonCol).1 ↔
      r ∈ tableRows ∧ (rowGet r latCol = none ∨ rowGet r lonCol = none)) ∧
    (∀ r : Row, rowGet r latCol ≠ none → rowGet r lonCol ≠ none →
      r ∉ (select_ungeocoded tableRows latCol lonCol).1) := by
  refine ⟨rfl, ?_, ?_⟩
  · intro r
    simp [select_ungeocoded, List.mem_filter, ungeocoded,
      Option.isNone_iff_eq_none]
  · intro r hlat hlon hmem
    simp [select_ungeocoded, List.mem_filter, ungeocoded,
      Option.isNone_iff_eq_none] at hmem
    rcases hmem.2 with h | h
    · exact hlat h
    · exact hlon h

/-- Witness for C1 at a concrete table: the fully geocoded row is not
selected, the two incomplete rows are, and the count is two. -/
theorem select_ungeocoded_correct_witness :
    rowGet wRow3 "latitude" ≠ none ∧ rowGet wRow3 "longitude" ≠ none ∧
    wRow3 ∉ (select_ungeocoded wTable "latitude" "longitude").1 ∧
    (select_ungeocoded wTable "latitude" "longitude").2 =
      (select_ungeocoded wTable "latitude" "longitude").1.length :=
  ⟨by decide, by decide,
    (select_ungeocoded_correct wTable "latitude" "longitude").2.2 wRow3
      (by decide) (by decide),
    (select_ungeocoded_correct wTable "latitude" "longitude").1⟩

/-- C8: each common option that is not supplied resolves to its declared
default — the location template, a one second delay, and the standard
latitude and longitude column names. -/
theorem common_option_defaults (location : Option String)
    (delay : Option Rat) (latitude longitude : Option String) :
    (location = none →
      (resolveCommonOptions location delay latitude longitude).location =
        "{location}") ∧
    (delay = none →
      (resolveCommonOptions location delay latitude longitude).delay = 1) ∧
    (latitude = none →
      (resolveCommonOptions location delay latitude longitude).latitude =
        "latitude") ∧
    (longitude = none →
      (resolveCommonOptions location delay latitude longitude).longitude =
        "longitude") := by
  refine ⟨?_, ?_, ?_, ?_⟩ <;> rintro rfl <;> rfl

/-- Witness for C8: with nothing supplied, the four defaults come out. -/
theorem common_option_defaults_witness :
    (resolveCommonOptions none none none none).location = "{location}" ∧
    (resolveCommonOptions none none none none).delay = 1 ∧
    (resolveCommonOptions none none none none).latitude = "latitude" ∧
    (resolveCommonOptions none none none none).longitude = "longitude" :=
  ⟨(common_option_defaults none none none none).1 rfl,
    (common_option_defaults none none none none).2.1 rfl,
    (common_option_defaults none none none none).2.2.1 rfl,
    (common_option_defaults none none none none).2.2.2 rfl⟩

/-- C9: filling the context with the six common options and then extracting
it returns exactly those values, in the order database, table, location,
delay, latitude, longitude. -/
theorem context_round_trip (ctx : Ctx) (database table location : String)
    (delay : Rat) (latitude longitude : String) :
    extract_context
        (fill_context ctx database table location delay latitude longitude) =
      (some (CtxVal.s database), some (CtxVal.s table),
        some (CtxVal.s location), some (CtxVal.q delay),
        some (CtxVal.s latitude), some (CtxVal.s longitude)) := by
  rfl

/-- C10: the mapquest and open-mapquest subcommands are the same function —
same echoed line, same context filling, same MapQuest geocoder from the same
API key. -/
theorem mapquest_eq_open_mapquest : mapquest = open_mapquest := rfl

/-- Helper: accounting invariant of the consumer fold, generalized over the
starting state. -/
theorem drive_foldl_accounting (pkCols : List String) :
    ∀ (pairs : List (Row × Bool)) (st : DriveState),
      (pairs.foldl (driveStep pkCols) st).done =
        st.done + (pairs.filter (fun q => q.2)).length ∧
      (pairs.foldl (driveStep pkCols) st).errors =
        st.errors ++ (pairs.filter (fun q => !q.2)).map
          (fun q => rowPks pkCols q.1) := by
  intro pairs
  induction pairs with
  | nil => intro st; simp
  | cons q rest ih =>
    intro st
    obtain ⟨row, b⟩ := q
    cases b
    · have h := ih { st with errors := st.errors ++ [rowPks pkCols row] }
      simp only [List.foldl_cons, driveStep, if_neg Bool.false_ne_true]
      simp only [driveStep] at h
      constructor
      · rw [h.1]
        simp [List.filter_cons]
      · rw [h.2]
        simp
    · have h := ih { st with
        stored := tableUpdate st.stored pkCols (rowPks pkCols row) row,
        done := st.done + 1 }
      simp only [List.foldl_cons, driveStep, if_pos trivial]
      simp only [driveStep] at h
      constructor
      · rw [h.1]
        simp [List.filter_cons]
        omega
      · rw [h.2]
        simp [List.filter_cons]

/-- C3: the consumer loop persists a successful row immediately through a
primary-key update and bumps the counter, records a failed row's primary key
without writing, and in the end reports a count equal to the number of
successful pairs while the error list holds exactly the primary keys of the
failed pairs, in order. -/
theorem drive_accounting (pkCols : List String) (stored : List Row)
    (pairs : List (Row × Bool)) (t : Template) :
    (drive pkCols stored pairs).done =
      (pairs.filter (fun q => q.2)).length ∧
    (summaryLines (drive pkCols stored pairs) pkCols t).1.head? =
      some ("Geocoded " ++
        toString (pairs.filter (fun q => q.2)).length ++ " rows") ∧
    (drive pkCols stored pairs).errors =
      (pairs.filter (fun q => !q.2)).map (fun q => rowPks pkCols q.1) ∧
    (∀ st : DriveState, ∀ row : Row,
      (driveStep pkCols st (row, true)).stored =
        tableUpdate st.stored pkCols (rowPks pkCols row) row ∧
      (driveStep pkCols st (row, true)).done = st.done + 1 ∧
      (driveStep pkCols st (row, true)).errors = st.errors ∧
      (driveStep pkCols st (row, false)).stored = st.stored ∧
      (driveStep pkCols st (row, false)).done = st.done ∧
      (driveStep pkCols st (row, false)).errors =
        st.errors ++ [rowPks pkCols row]) := by
  have h := drive_foldl_accounting pkCols pairs
    { stored := stored, done := 0, errors := [] }
  have hdone : (drive pkCols stored pairs).done =
      (pairs.filter (fun q => q.2)).length := by
    rw [drive, h.1]
    simp
  refine ⟨hdone, ?_, ?_, ?_⟩
  · rw [summaryLines]
    split
    · simp [hdone]
    · simp [hdone]
  · rw [drive, h.2]
    simp
  · intro st row
    exact ⟨rfl, rfl, rfl, rfl, rfl, rfl⟩

/-- Helper: updating the table at one primary key does not change lookups at
a different primary key, provided the new row itself carries the updated
key. -/
theorem tableGet_tableUpdate_ne (pkCols : List String)
    (pks2 pks : List (Option Val)) (newRow : Row)
    (hnew : rowPks pkCols newRow = pks2) (hne : pks2 ≠ pks) :
    ∀ stored : List Row,
      tableGet (tableUpdate stored pkCols pks2 newRow) pkCols pks =
        tableGet stored pkCols pks := by
  intro stored
  induction stored with
  | nil => rfl
  | cons r rest ih =>
    simp only [tableUpdate, List.map_cons, tableGet] at ih ⊢
    by_cases hr : rowPks pkCols r = pks2
    · rw [if_pos hr]
      rw [List.find?_cons_of_neg _ (by simp [hnew, hne]),
        List.find?_cons_of_neg _ (by simp [hr, hne])]
      exact ih
    · rw [if_neg hr]
      by_cases hp : rowPks pkCols r = pks
      · rw [List.find?_cons_of_pos _ (by simp [hp]),
          List.find?_cons_of_pos _ (by simp [hp])]
      · rw [List.find?_cons_of_neg _ (by simp [hp]),
          List.find?_cons_of_neg _ (by simp [hp])]
        exact ih

/-- Helper: if no successful pair carries a given primary key, the consumer
fold leaves the stored row at that key unchanged, from any starting state. -/
theorem drive_foldl_frame (pkCols : List String) (pks : List (Option Val)) :
    ∀ pairs : List (Row × Bool),
      (∀ q ∈ pairs, q.2 = true → rowPks pkCols q.1 ≠ pks) →
      ∀ st : DriveState,
        tableGet (pairs.foldl (driveStep pkCols) st).stored pkCols pks =
          tableGet st.stored pkCols pks := by
  intro pairs
  induction pairs with
  | nil => intro _ st; rfl
  | cons q rest ih =>
    intro hno st
    obtain ⟨row, b⟩ := q
    have hrest := ih (fun q2 h2 => hno q2 (List.mem_cons_of_mem _ h2))
    rw [List.foldl_cons, hrest]
    cases b
    · rfl
    · have hne := hno (row, true) (List.mem_cons_self _ _) rfl
      simp only [driveStep, if_pos trivial]
      exact tableGet_tableUpdate_ne pkCols _ pks row rfl hne st.stored

/-- Helper: every row stored after the consumer fold is an original stored
row or the row of some successful pair. -/
theorem drive_foldl_stored_mem (pkCols : List String) :
    ∀ pairs : List (Row × Bool), ∀ st : DriveState, ∀ r : Row,
      r ∈ (pairs.foldl (driveStep pkCols) st).stored →
      r ∈ st.stored ∨ ∃ q ∈ pairs, q.2 = true ∧ q.1 = r := by
  intro pairs
  induction pairs with
  | nil => intro st r h; exact Or.inl h
  | cons q rest ih =>
    intro st r h
    rw [List.foldl_cons] at h
    rcases ih (driveStep pkCols st q) r h with h1 | ⟨q2, hq2, hs, he⟩
    · obtain ⟨row, b⟩ := q
      cases b
      · exact Or.inl h1
      · simp only [driveStep, if_pos trivial, tableUpdate] at h1
        rcases List.mem_map.1 h1 with ⟨x, hx, hxr⟩
        by_cases hc : rowPks pkCols x = rowPks pkCols row
        · rw [if_pos hc] at hxr
          exact Or.inr ⟨(row, true), List.mem_cons_self _ _, rfl, hxr⟩
        · rw [if_neg hc] at hxr
          exact Or.inl (hxr ▸ hx)
    · exact Or.inr ⟨q2, List.mem_cons_of_mem _ hq2, hs, he⟩

/-- C5: when no successful pair carries a given primary key — in particular
for the key of any failed pair, since a row appears in at most one pair —
the run performs no update at that key, so the stored row there is exactly
what it was before the run; moreover every stored row after the run is an
original row or the row of some successful pair. -/
theorem failed_rows_not_written (pkCols : List String) (stored : List Row)
    (pairs : List (Row × Bool)) (pks : List (Option Val))
    (hnosucc : ∀ q ∈ pairs, q.2 = true → rowPks pkCols q.1 ≠ pks) :
    tableGet (drive pkCols stored pairs).stored pkCols pks =
      tableGet stored pkCols pks ∧
    ∀ r : Row, r ∈ (drive pkCols stored pairs).stored →
      r ∈ stored ∨ ∃ q ∈ pairs, q.2 = true ∧ q.1 = r := by
  constructor
  · exact drive_foldl_frame pkCols pks pairs hnosucc
      { stored := stored, done := 0, errors := [] }
  · intro r h
    exact drive_foldl_stored_mem pkCols pairs
      { stored := stored, done := 0, errors := [] } r h

/-- Witness for C5 at a concrete run: one success on the first row, one
failure on the second; the stored row under the failed primary key is
untouched. -/
theorem failed_rows_not_written_witness :
    (∀ q ∈ [(wRow3, true), (wRow2, false)], q.2 = true →
      rowPks ["id"] q.1 ≠ [some (Val.s "2")]) ∧
    tableGet (drive ["id"] wTable [(wRow3, true), (wRow2, false)]).stored
        ["id"] [some (Val.s "2")] =
      tableGet wTable ["id"] [some (Val.s "2")] :=
  ⟨by decide,
    (failed_rows_not_written ["id"] wTable [(wRow3, true), (wRow2, false)]
      [some (Val.s "2")] (by decide)).1⟩

/-- Helper: an unsuccessful outcome leaves the row untouched and classifies
the pair as a failure. -/
theorem applyOutcome_failure (latCol lonCol pname : String) (row : Row)
    (o : Outcome) (h : o.isSuccess = false) :
    applyOutcome latCol lonCol pname row o = (row, false) := by
  cases o with
  | found lat lon => simp [Outcome.isSuccess] at h
  | notFound => rfl
  | error cause => rfl
  | raised exn => rfl

/-- Helper: when every row's template renders, the pipeline neither aborts
nor drops a row — it maps each row to its classified pair, in order. -/
theorem geocode_list_renders (p : Provider) (t : Template)
    (latCol lonCol : String) :
    ∀ rows : List Row, (∀ r ∈ rows, (renderTemplate t r).isSome) →
      geocode_list rows p t latCol lonCol =
        (rows.map (fun r =>
          applyOutcome latCol lonCol p.name r
            (p.geocode ((renderTemplate t r).getD ""))), false) := by
  intro rows
  induction rows with
  | nil => intro _; rfl
  | cons row rest ih =>
    intro h
    obtain ⟨q, hq⟩ := Option.isSome_iff_exists.1
      (h row (List.mem_cons_self row rest))
    have hrest := ih (fun r hmem => h r (List.mem_cons_of_mem _ hmem))
    simp [geocode_list, hq, hrest]

/-- C2: if the template renders on every selected row and the provider call
on row k returns NotFound, an Error, or raises, the pipeline does not abort,
still emits one pair per input row, and its k-th pair is exactly the k-th
input row — its coordinate columns unchanged — classified as a failure. -/
theorem provider_failure_isolated (rows : List Row) (p : Provider)
    (t : Template) (latCol lonCol : String) (k : Nat)
    (hk : k < rows.length)
    (hrender : ∀ r ∈ rows, (renderTemplate t r).isSome)
    (q : String) (hq : renderTemplate t (rows.get ⟨k, hk⟩) = some q)
    (hfail : (p.geocode q).isSuccess = false) :
    (geocode_list rows p t latCol lonCol).2 = false ∧
    (geocode_list rows p t latCol lonCol).1.length = rows.length ∧
    (geocode_list rows p t latCol lonCol).1.getD k ([], true) =
      (rows.get ⟨k, hk⟩, false) ∧
    rowGet ((geocode_list rows p t latCol lonCol).1.getD k ([], true)).1
        latCol = rowGet (rows.get ⟨k, hk⟩) latCol ∧
    rowGet ((geocode_list rows p t latCol lonCol).1.getD k ([], true)).1
        lonCol = rowGet (rows.get ⟨k, hk⟩) lonCol := by
  have hmap := geocode_list_renders p t latCol lonCol rows hrender
  have hpair : (geocode_list rows p t latCol lonCol).1.getD k ([], true) =
      (rows.get ⟨k, hk⟩, false) := by
    rw [hmap]
    simp only [List.getD_eq_getElem?_getD]
    rw [List.getElem?_map]
    rw [List.getElem?_eq_getElem hk]
    show applyOutcome latCol lonCol p.name (rows.get ⟨k, hk⟩)
        (p.geocode ((renderTemplate t (rows.get ⟨k, hk⟩)).getD "")) =
      (rows.get ⟨k, hk⟩, false)
    rw [hq]
    simp only [Option.getD_some]
    exact applyOutcome_failure latCol lonCol p.name _ _ hfail
  refine ⟨by rw [hmap], by rw [hmap]; simp, hpair, by rw [hpair], by rw [hpair]⟩

/-- Witness for C2 at a concrete pipeline: two renderable rows, the provider
fails on the first query and succeeds on the second; the first pair is the
unchanged first row marked failed, and both rows got a pair. -/
theorem provider_failure_isolated_witness :
    (0 : Nat) < [wRow1, wRow2].length ∧
    (∀ r ∈ [wRow1, wRow2], (renderTemplate wTemplate r).isSome) ∧
    renderTemplate wTemplate ([wRow1, wRow2].get ⟨0, by decide⟩) =
      some "London" ∧
    (wProvider.geocode "London").isSuccess = false ∧
    ((geocode_list [wRow1, wRow2] wProvider wTemplate "latitude"
      "longitude").2 = false ∧
    (geocode_list [wRow1, wRow2] wProvider wTemplate "latitude"
      "longitude").1.length = [wRow1, wRow2].length ∧
    (geocode_list [wRow1, wRow2] wProvider wTemplate "latitude"
      "longitude").1.getD 0 ([], true) =
      ([wRow1, wRow2].get ⟨0, by decide⟩, false) ∧
    rowGet ((geocode_list [wRow1, wRow2] wProvider wTemplate "latitude"
        "longitude").1.getD 0 ([], true)).1 "latitude" =
      rowGet ([wRow1, wRow2].get ⟨0, by decide⟩) "latitude" ∧
    rowGet ((geocode_list [wRow1, wRow2] wProvider wTemplate "latitude"
        "longitude").1.getD 0 ([], true)).1 "longitude" =
      rowGet ([wRow1, wRow2].get ⟨0, by decide⟩) "longitude") :=
  ⟨by decide, by decide, by decide, by decide,
    provider_failure_isolated [wRow1, wRow2] wProvider wTemplate "latitude"
      "longitude" 0 (by decide) (by decide) "London" (by decide) (by decide)⟩

/-- Helper: starting from a limiter that has already called at time `last`,
every dispatched start time follows its predecessor by at least the minimum
delay, `last` included. -/
theorem dispatchTimes_chain (d : Rat) :
    ∀ (reqs : List Rat) (rl : RateLimiter) (last : Rat),
      rl.minDelay = d → rl.lastCall = some last →
      List.Chain' (fun a b => a + d ≤ b) (last :: dispatchTimes rl reqs) := by
  intro reqs
  induction reqs with
  | nil => intro rl last _ _; simp [dispatchTimes]
  | cons now rest ih =>
    intro rl last hd hl
    have hstart : (limiterCall rl now).1 = max now (last + d) := by
      simp [limiterCall, hl, hd, max_def]
    rw [dispatchTimes, List.chain'_cons]
    constructor
    · rw [hstart]
      exact le_max_right _ _
    · exact ih (limiterCall rl now).2 (limiterCall rl now).1
        (by simp [limiterCall, hd]) (by simp [limiterCall])

/-- Helper: the dispatched start times themselves form a chain separated by
the minimum delay. -/
theorem dispatchTimes_chain_self (d : Rat) (reqs : List Rat) :
    List.Chain' (fun a b => a + d ≤ b)
      (dispatchTimes (makeLimiter d) reqs) := by
  cases reqs with
  | nil => simp [dispatchTimes]
  | cons now rest =>
    rw [dispatchTimes]
    have h := dispatchTimes_chain d rest (limiterCall (makeLimiter d) now).2
      (limiterCall (makeLimiter d) now).1
      (by simp [limiterCall, makeLimiter]) (by simp [limiterCall])
    simpa [limiterCall, makeLimiter] using h

/-- Helper: along a chain separated by `d`, the last element exceeds the
first by at least `d` per step. -/
theorem chain_le_getLast (d : Rat) :
    ∀ (l : List Rat) (x y : Rat),
      List.Chain' (fun a b => a + d ≤ b) (x :: l) →
      (x :: l).getLast? = some y →
      x + l.length * d ≤ y := by
  intro l
  induction l with
  | nil =>
    intro x y _ hy
    simp only [List.getLast?_singleton, Option.some_inj] at hy
    simp [hy]
  | cons z rest ih =>
    intro x y hchain hy
    rw [List.chain'_cons] at hchain
    rw [List.getLast?_cons_cons] at hy
    have h2 := ih z y hchain.2 hy
    have h1 := hchain.1
    simp only [List.length_cons]
    push_cast
    push_cast at h2
    linarith

/-- C6: the driver wraps the geocode capability in a limiter whose minimum
inter-call interval is exactly the configured delay, zero included; the
dispatched start times then satisfy both the pairwise bound — each start at
least the delay after the previous one — and the global bound: across N
calls, last start minus first start is at least (N-1) times the delay. -/
theorem rate_limiter_uniform (d : Rat) (reqs : List Rat) :
    (makeLimiter d).minDelay = d ∧
    (∀ (i : Nat) (hi : i + 1 < (dispatchTimes (makeLimiter d) reqs).length),
      (dispatchTimes (makeLimiter d) reqs).get ⟨i, Nat.lt_of_succ_lt hi⟩ + d ≤
        (dispatchTimes (makeLimiter d) reqs).get ⟨i + 1, hi⟩) ∧
    (∀ x y : Rat,
      (dispatchTimes (makeLimiter d) reqs).head? = some x →
      (dispatchTimes (makeLimiter d) reqs).getLast? = some y →
      x + ((dispatchTimes (makeLimiter d) reqs).length - 1 : Nat) * d ≤ y) := by
  refine ⟨rfl, ?_, ?_⟩
  · intro i hi
    exact List.chain'_iff_get.1 (dispatchTimes_chain_self d reqs) i
      (by omega)
  · intro x y hx hy
    cases hreq : dispatchTimes (makeLimiter d) reqs with
    | nil => rw [hreq] at hx; cases hx
    | cons t rest =>
      have hchain := dispatchTimes_chain_self d reqs
      rw [hreq] at hchain hx hy
      simp only [List.head?_cons, Option.some_inj] at hx
      have hlast := chain_le_getLast d rest t y hchain hy
      simp only [List.length_cons, Nat.add_sub_cancel]
      rw [← hx]
      exact hlast

/-- Helper: the concrete dispatch schedule of the C6 witness — three calls
requested at time zero with delay two start at times zero, two and four. -/
theorem dispatchTimes_concrete :
    dispatchTimes (makeLimiter 2) [0, 0, 0] = [0, 2, 4] := by
  norm_num [dispatchTimes, limiterCall, makeLimiter]

/-- Witness for C6 at delay two and three requests all issued at time zero:
the start times are zero, two and four; the first start plus twice the delay
bounds the last start. -/
theorem rate_limiter_uniform_witness :
    (dispatchTimes (makeLimiter 2) [0, 0, 0]).head? = some 0 ∧
    (dispatchTimes (makeLimiter 2) [0, 0, 0]).getLast? = some 4 ∧
    (0 : Rat) + ((dispatchTimes (makeLimiter 2) [0, 0, 0]).length - 1 : Nat)
        * 2 ≤ 4 :=
  ⟨by rw [dispatchTimes_concrete]; rfl, by rw [dispatchTimes_concrete]; rfl,
    (rate_limiter_uniform 2 [0, 0, 0]).2.2 0 4
      (by rw [dispatchTimes_concrete]; rfl)
      (by rw [dispatchTimes_concrete]; rfl)⟩

/-- Helper: a conditional column creation never removes an existing name. -/
theorem addColumnIfMissing_keeps (cols : List Column) (n : String)
    (ty : ColType) (m : String)
    (h : cols.any (fun c => c.name = m) = true) :
    (addColumnIfMissing cols n ty).any (fun c => c.name = m) = true := by
  unfold addColumnIfMissing
  split
  · exact h
  · simp only [List.any_append, h, Bool.true_or]

/-- Helper: after a conditional column creation the created name is
present. -/
theorem addColumnIfMissing_self (cols : List Column) (n : String)
    (ty : ColType) :
    (addColumnIfMissing cols n ty).any (fun c => c.name = n) = true := by
  unfold addColumnIfMissing
  split
  · assumption
  · simp

/-- Helper: a conditional column creation preserves membership. -/
theorem addColumnIfMissing_mem (cols : List Column) (n : String)
    (ty : ColType) (c : Column) (h : c ∈ cols) :
    c ∈ addColumnIfMissing cols n ty := by
  unfold addColumnIfMissing
  split
  · exact h
  · exact List.mem_append_left _ h

/-- Helper: a conditional column creation does not duplicate a name that is
already present. -/
theorem addColumnIfMissing_countP (cols : List Column) (n : String)
    (ty : ColType) (m : String)
    (h : cols.any (fun c => c.name = m) = true) :
    (addColumnIfMissing cols n ty).countP (fun c => c.name = m) =
      cols.countP (fun c => c.name = m) := by
  unfold addColumnIfMissing
  split
  · rfl
  · rename_i hn
    have hnm : n ≠ m := by
      intro he
      rw [he] at hn
      exact hn h
    rw [List.countP_append]
    simp [List.countP_cons, hnm]

/-- Helper: a conditional column creation for a different name keeps a
missing name missing. -/
theorem addColumnIfMissing_keeps_false (cols : List Column) (n : String)
    (ty : ColType) (m : String)
    (hm : cols.any (fun c => c.name = m) = false) (hnm : n ≠ m) :
    (addColumnIfMissing cols n ty).any (fun c => c.name = m) = false := by
  unfold addColumnIfMissing
  split
  · exact hm
  · rw [List.any_append]
    simp [hm, hnm]

/-- Helper: a conditional column creation on a missing name appends exactly
that column. -/
theorem addColumnIfMissing_adds (cols : List Column) (n : String)
    (ty : ColType) (h : cols.any (fun c => c.name = n) = false) :
    ({ name := n, ty := ty } : Column) ∈ addColumnIfMissing cols n ty := by
  unfold addColumnIfMissing
  rw [h]
  simp

/-- C7: before the selection runs, the driver's prepared schema contains the
latitude column, the longitude column and the geocoder column; every
pre-existing column survives; a name already present is not added again (its
multiplicity is unchanged); and a missing latitude or longitude column is
created with float type, a missing geocoder column with string type (when the
coordinate columns are not themselves named geocoder). -/
theorem schema_prepared (cols : List Column) (stored : List Row)
    (pkCols : List String) (p : Provider) (t : Template)
    (latCol lonCol : String) :
    ((geocode_run cols stored pkCols p t latCol lonCol).schema.any
        (fun c => c.name = latCol) = true) ∧
    ((geocode_run cols stored pkCols p t latCol lonCol).schema.any
        (fun c => c.name = lonCol) = true) ∧
    ((geocode_run cols stored pkCols p t latCol lonCol).schema.any
        (fun c => c.name = "geocoder") = true) ∧
    (∀ c ∈ cols, c ∈ (geocode_run cols stored pkCols p t latCol lonCol).schema) ∧
    (∀ m : String, cols.any (fun c => c.name = m) = true →
      (geocode_run cols stored pkCols p t latCol lonCol).schema.countP
          (fun c => c.name = m) =
        cols.countP (fun c => c.name = m)) ∧
    (cols.any (fun c => c.name = latCol) = false →
      ({ name := latCol, ty := ColType.float } : Column) ∈
        (geocode_run cols stored pkCols p t latCol lonCol).schema) ∧
    (cols.any (fun c => c.name = lonCol) = false →
      ({ name := lonCol, ty := ColType.float } : Column) ∈
        (geocode_run cols stored pkCols p t latCol lonCol).schema) ∧
    (cols.any (fun c => c.name = "geocoder") = false →
      latCol ≠ "geocoder" → lonCol ≠ "geocoder" →
      ({ name := "geocoder", ty := ColType.text } : Column) ∈
        (geocode_run cols stored pkCols p t latCol lonCol).schema) := by
  have hschema : (geocode_run cols stored pkCols p t latCol lonCol).schema =
      prepareSchema cols latCol lonCol := rfl
  rw [hschema]
  unfold prepareSchema
  refine ⟨?_, ?_, ?_, ?_, ?_, ?_, ?_, ?_⟩
  · exact addColumnIfMissing_keeps _ _ _ _
      (addColumnIfMissing_keeps _ _ _ _ (addColumnIfMissing_self _ _ _))
  · exact addColumnIfMissing_keeps _ _ _ _ (addColumnIfMissing_self _ _ _)
  · exact addColumnIfMissing_self _ _ _
  · intro c hc
    exact addColumnIfMissing_mem _ _ _ _
      (addColumnIfMissing_mem _ _ _ _ (addColumnIfMissing_mem _ _ _ _ hc))
  · intro m hm
    rw [addColumnIfMissing_countP _ _ _ _
        (addColumnIfMissing_keeps _ _ _ _ (addColumnIfMissing_keeps _ _ _ _ hm)),
      addColumnIfMissing_countP _ _ _ _ (addColumnIfMissing_keeps _ _ _ _ hm),
      addColumnIfMissing_countP _ _ _ _ hm]
  · intro hlat
    exact addColumnIfMissing_mem _ _ _ _ (addColumnIfMissing_mem _ _ _ _
      (addColumnIfMissing_adds _ _ _ hlat))
  · intro hlon
    by_cases hll : latCol = lonCol
    · subst hll
      exact addColumnIfMissing_mem _ _ _ _ (addColumnIfMissing_mem _ _ _ _
        (addColumnIfMissing_adds _ _ _ hlon))
    · have hc1f := addColumnIfMissing_keeps_false cols latCol ColType.float
        lonCol hlon hll
      exact addColumnIfMissing_mem _ _ _ _
        (addColumnIfMissing_adds _ _ _ hc1f)
  · intro hgeo hlat hlon
    have h1 := addColumnIfMissing_keeps_false cols latCol ColType.float
      "geocoder" hgeo hlat
    have h2 := addColumnIfMissing_keeps_false _ lonCol ColType.float
      "geocoder" h1 hlon
    exact addColumnIfMissing_adds _ _ _ h2

/-- Witness for C7 at a concrete schema missing all three columns: every
conjunct's hypotheses hold and the three columns are created with the claimed
types. -/
theorem schema_prepared_witness :
    ([⟨"id", ColType.text⟩] : List Column).any
        (fun c => c.name = "latitude") = false ∧
    ([⟨"id", ColType.text⟩] : List Column).any
        (fun c => c.name = "geocoder") = false ∧
    ("latitude" : String) ≠ "geocoder" ∧ ("longitude" : String) ≠ "geocoder" ∧
    ({ name := "latitude", ty := ColType.float } : Column) ∈
      (geocode_run [⟨"id", ColType.text⟩] wTable ["id"] wProvider wTemplate
        "latitude" "longitude").schema ∧
    ({ name := "geocoder", ty := ColType.text } : Column) ∈
      (geocode_run [⟨"id", ColType.text⟩] wTable ["id"] wProvider wTemplate
        "latitude" "longitude").schema :=
  ⟨by decide, by decide, by decide, by decide,
    (schema_prepared [⟨"id", ColType.text⟩] wTable ["id"] wProvider wTemplate
      "latitude" "longitude").2.2.2.2.2.1 (by decide),
    (schema_prepared [⟨"id", ColType.text⟩] wTable ["id"] wProvider wTemplate
      "latitude" "longitude").2.2.2.2.2.2.2 (by decide) (by decide)
      (by decide)⟩

/-- C4, as the code behaves at a concrete failing input: with one failed row
recorded and the default location template, the summary prints the count line
and the header, then calls `location.format(row)` with the row as a
positional argument; the named replacement field finds no keyword argument,
so the call raises KeyError and no per-failure line is produced — although
rendering the same template against the row's fields would give the
location. -/
theorem summary_positional_format_fails :
    (summaryLines wFailState ["id"] wTemplate).2 = true ∧
    (summaryLines wFailState ["id"] wTemplate).1 =
      ["Geocoded 0 rows", "The following rows failed to geocode:"] ∧
    formatPositional wTemplate wRow1 = none ∧
    renderTemplate wTemplate wRow1 = some "London" ∧
    tableGet wFailState.stored ["id"] [some (Val.s "1")] = some wRow1 := by
  refine ⟨rfl, rfl, rfl, rfl, rfl⟩

end GeocodeSqlite
